import Mathlib

/-!
Verification of the basic-statistics news pipeline
(`demo/basic_stats.py`, `practice/generate_basic_stats.py`).

The development shallowly embeds the data model and the operations of the
pipeline: cell values of the in-memory table (pandas scalars restricted to
the shapes the pipeline produces: missing, string, integer), the data frame
as an ordered association of column names to cell columns, the word-count
deriver `safe_word_count`, the schema warning of `load_data`, the
column-append semantics of `add_word_count`, the timestamp parsing and the
daily-count aggregate of `parse_published` / `make_plots`, the top-source
ranking, the metric rows and the markdown lines of `write_report`, a
cell-level model of the CSV write/read round trip, and the control flow of
`main`.  Library calls of the source (pandas / numpy) are modelled by
explicit Lean functions; each such model carries a doc comment naming the
library behaviour it stands for.
-/

namespace BasicStats

/-! ### Character-level string utilities (models of Python `str` methods) -/

/-- Model of Python `str.strip()`: drop whitespace from both ends. -/
def pyStrip (cs : List Char) : List Char :=
  ((cs.dropWhile Char.isWhitespace).reverse.dropWhile Char.isWhitespace).reverse

/-- Helper for `pySplit`: walk the characters, accumulating the current
(reversed) token; whitespace flushes the accumulator. -/
def splitWsAux : List Char → List Char → List (List Char)
  | [], acc => if acc.isEmpty then [] else [acc.reverse]
  | c :: rest, acc =>
    if c.isWhitespace then
      (if acc.isEmpty then [] else [acc.reverse]) ++ splitWsAux rest []
    else splitWsAux rest (c :: acc)

/-- Model of Python `str.split()` with no separator: maximal runs of
non-whitespace characters; leading/trailing/repeated whitespace yields no
empty tokens. -/
def pySplit (cs : List Char) : List (List Char) :=
  splitWsAux cs []

/-- Decimal digit character for a digit value 0–9. -/
def digitChar : ℕ → Char
  | 0 => '0' | 1 => '1' | 2 => '2' | 3 => '3' | 4 => '4'
  | 5 => '5' | 6 => '6' | 7 => '7' | 8 => '8' | 9 => '9'
  | _ => '*'

/-- Little-endian decimal digits of `n`, computed with explicit fuel so that
the definition is structural (and hence evaluates inside the kernel). -/
def natDigsAux : ℕ → ℕ → List ℕ
  | 0, _ => []
  | fuel + 1, n => if n = 0 then [] else n % 10 :: natDigsAux fuel (n / 10)

/-- Model of Python `str(n)` for a natural number: usual decimal notation. -/
def natToString (n : ℕ) : String :=
  if n = 0 then "0" else String.mk (((natDigsAux n n).reverse).map digitChar)

/-- Model of Python `str(z)` for an integer. -/
def intToString (z : ℤ) : String :=
  if z < 0 then "-" ++ natToString z.natAbs else natToString z.natAbs

/-- Helper for `parseNat?`: fold decimal digits left to right; any
non-digit character rejects the whole string. -/
def parseNatAux (acc : ℕ) : List Char → Option ℕ
  | [] => some acc
  | c :: cs => if c.isDigit then parseNatAux (acc * 10 + (c.toNat - 48)) cs else none

/-- Parse a non-empty all-digit string as a natural number (the shape of
integer cells that the CSV reader's type inference recognises). -/
def parseNat? (s : String) : Option ℕ :=
  match s.data with
  | [] => none
  | c :: cs => parseNatAux 0 (c :: cs)

/-! ### Cell values and the word-count deriver -/

/-- A cell of the in-memory table: pandas scalars as the pipeline produces
them — missing (`None`/`NaN`), a string, or a non-negative integer (the
derived word counts, and digit strings after CSV re-reading). -/
inductive Value where
  | null : Value
  | str : String → Value
  | nat : ℕ → Value
deriving DecidableEq

/-- Model of Python `str(x)` on a non-missing cell value. -/
def pyStr : Value → String
  | .null => "nan"
  | .str s => s
  | .nat n => natToString n

/-- Word-count deriver `safe_word_count` of `demo/basic_stats.py`:
`None`/`NaN` gives 0; otherwise the textual representation is stripped,
the empty string gives 0, and otherwise the whitespace-delimited tokens
are counted. -/
def safe_word_count (v : Value) : ℕ :=
  match v with
  | .null => 0
  | _ =>
    let s := pyStrip (pyStr v).data
    if s.isEmpty then 0 else (pySplit s).length

/-! ### The data frame -/

/-- The in-memory table: an ordered association of column names to columns
of cell values (pandas `DataFrame`, restricted to what the pipeline uses). -/
structure DF where
  cols : List (String × List Value)
deriving DecidableEq

/-- Column names, in order. -/
def DF.names (df : DF) : List String :=
  df.cols.map Prod.fst

/-- Model of `df[name]`: the column, or a `KeyError` when absent. -/
def DF.getCol (df : DF) (name : String) : Except String (List Value) :=
  match df.cols.find? (fun p => p.1 = name) with
  | some p => .ok p.2
  | none => .error ("KeyError: " ++ name)

/-- Model of `df.get(name, default-empty-series)`: the column, or the empty
column when absent. -/
def DF.get (df : DF) (name : String) : List Value :=
  match df.cols.find? (fun p => p.1 = name) with
  | some p => p.2
  | none => []

/-- Model of the pandas assignment `df[name] = col`: overwrite the column in
place when the name exists, otherwise append it as the last column. -/
def DF.setCol (df : DF) (name : String) (col : List Value) : DF :=
  if name ∈ df.names then
    ⟨df.cols.map (fun p => if p.1 = name then (p.1, col) else p)⟩
  else
    ⟨df.cols ++ [(name, col)]⟩

/-! ### Loading and deriving -/

/-- The expected column set of `load_data`. -/
def expectedCols : List String :=
  ["title", "authors", "source", "url", "published", "language", "sentiment", "body"]

/-- Insert `x` into `l` in front of the first element `y` with `le x y`. -/
def insertLe (le : α → α → Bool) (x : α) : List α → List α
  | [] => [x]
  | y :: ys => if le x y then x :: y :: ys else y :: insertLe le x ys

/-- Insertion sort by the boolean relation `le`; used to model the sorted
enumerations of the source (`sorted(...)`, `sort_index()`, and the stable
descending `value_counts` order realised as a total order). -/
def insSort (le : α → α → Bool) : List α → List α
  | [] => []
  | x :: xs => insertLe le x (insSort le xs)

/-- Code-point lexicographic comparison of character lists — the string
order used by Python `sorted`. -/
def lexLe : List Char → List Char → Bool
  | [], _ => true
  | _ :: _, [] => false
  | a :: as, b :: bs =>
    if a.toNat < b.toNat then true
    else if b.toNat < a.toNat then false
    else lexLe as bs

/-- Python string comparison `a <= b` (code-point lexicographic). -/
def strLe (a b : String) : Bool :=
  lexLe a.data b.data

/-- Missing expected columns, sorted lexicographically — the payload of the
`Warning: missing expected columns: ...` line of `load_data` (Python
`sorted(expected_cols - set(df.columns))`). -/
def sortedMissing (df : DF) : List String :=
  insSort strLe (expectedCols.filter (fun c => decide (c ∉ df.names)))

/-- Schema warnings of `load_data`: one warning carrying the sorted missing
column names when any expected column is absent, none otherwise.  The data
frame itself is returned unchanged (reading the file is the CSV reader's
job, modelled elsewhere). -/
def loadWarnings (df : DF) : List (List String) :=
  if (sortedMissing df).isEmpty then [] else [sortedMissing df]

/-- `add_word_count` of `demo/basic_stats.py`: copy the frame and assign
`df["word_count"] = df["body"].apply(safe_word_count)`.  Reading
`df["body"]` raises `KeyError` when the column is absent. -/
def add_word_count (df : DF) : Except String DF :=
  (df.getCol "body").map
    (fun body => df.setCol "word_count" (body.map (fun v => Value.nat (safe_word_count v))))

/-! ### First-seen unique enumeration -/

/-- Unique values of a list in first-seen order, skipping those already in
`seen`; models the unique-value enumeration underlying `value_counts`. -/
def uniqFS [DecidableEq α] (seen : List α) : List α → List α
  | [] => []
  | x :: xs => if x ∈ seen then uniqFS seen xs else x :: uniqFS (x :: seen) xs

/-! ### Calendar dates and the lenient timestamp parser -/

/-- Gregorian leap-year rule. -/
def isLeap (y : ℕ) : Bool :=
  y % 4 == 0 && (y % 100 != 0 || y % 400 == 0)

/-- Days in a month of the Gregorian calendar. -/
def daysInMonth (y m : ℕ) : ℕ :=
  if m = 2 then (if isLeap y then 29 else 28)
  else if m = 4 ∨ m = 6 ∨ m = 9 ∨ m = 11 then 30
  else 31

/-- A timezone-naive calendar date. -/
structure Date where
  y : ℕ
  m : ℕ
  d : ℕ
deriving DecidableEq

/-- Numeric sort key of a date (months and days stay below 100, so the key
orders dates chronologically). -/
def Date.key (dt : Date) : ℕ :=
  dt.y * 10000 + dt.m * 100 + dt.d

/-- The following calendar day. -/
def Date.next (dt : Date) : Date :=
  if dt.d < daysInMonth dt.y dt.m then ⟨dt.y, dt.m, dt.d + 1⟩
  else if dt.m < 12 then ⟨dt.y, dt.m + 1, 1⟩
  else ⟨dt.y + 1, 1, 1⟩

/-- The preceding calendar day. -/
def Date.prev (dt : Date) : Date :=
  if 1 < dt.d then ⟨dt.y, dt.m, dt.d - 1⟩
  else if 1 < dt.m then ⟨dt.y, dt.m - 1, daysInMonth dt.y (dt.m - 1)⟩
  else ⟨dt.y - 1, 12, 31⟩

/-- Decimal value of a digit character. -/
def digitVal (c : Char) : ℕ :=
  c.toNat - 48

/-- Read exactly two decimal digits. -/
def readD2 : List Char → Option (ℕ × List Char)
  | a :: b :: rest =>
    if a.isDigit && b.isDigit then some (digitVal a * 10 + digitVal b, rest) else none
  | _ => none

/-- Read exactly four decimal digits. -/
def readD4 : List Char → Option (ℕ × List Char)
  | a :: b :: c :: d :: rest =>
    if a.isDigit && b.isDigit && c.isDigit && d.isDigit then
      some (digitVal a * 1000 + digitVal b * 100 + digitVal c * 10 + digitVal d, rest)
    else none
  | _ => none

/-- Consume an optional `:SS` (and optional fractional part) after `HH:MM`,
returning the remaining characters (the timezone designator). -/
def parseSecFrac : List Char → Option (List Char)
  | ':' :: rest =>
    match readD2 rest with
    | some (ss, r1) =>
      if ss < 60 then
        match r1 with
        | '.' :: r2 =>
          if (r2.takeWhile Char.isDigit).isEmpty then none
          else some (r2.dropWhile Char.isDigit)
        | r1' => some r1'
      else none
    | none => none
  | rest => some rest

/-- Parse the timezone designator at the end of a timestamp, as an offset in
minutes east of UTC: nothing (naive, treated as UTC by `utc=True`), `Z`, or
`±HH:MM`. -/
def parseOffset : List Char → Option ℤ
  | [] => some 0
  | ['Z'] => some 0
  | c :: rest =>
    if c = '+' ∨ c = '-' then
      match readD2 rest with
      | some (oh, r1) =>
        match r1 with
        | ':' :: r2 =>
          match readD2 r2 with
          | some (om, []) =>
            if oh < 24 ∧ om < 60 then
              some (if c = '-' then -((oh : ℤ) * 60 + om) else (oh : ℤ) * 60 + om)
            else none
          | _ => none
        | _ => none
      | none => none
    else none

/-- Shift a date by one day when the UTC-converted minute-of-day falls
outside the local day (the offset magnitude stays below 24 hours, so one
step suffices). -/
def utcAdjust (dt : Date) (minutes : ℤ) : Date :=
  if minutes < 0 then dt.prev else if 1440 ≤ minutes then dt.next else dt

/-- Model of `pd.to_datetime(..., errors="coerce", utc=True)` followed by
`.dt.tz_convert(None).dt.date`: leniently parse an ISO-8601-style timestamp
(`YYYY-MM-DD`, optionally `T` or space and `HH:MM`, optional `:SS` and
fraction, optional `Z` or `±HH:MM` offset), validate the calendar and clock
fields, convert to UTC and truncate to the calendar date; every failure
yields `none` (`NaT`). -/
def parseTimestamp (s : String) : Option Date :=
  match readD4 s.data with
  | none => none
  | some (y, r1) =>
    match r1 with
    | '-' :: r2 =>
      match readD2 r2 with
      | none => none
      | some (mo, r3) =>
        match r3 with
        | '-' :: r4 =>
          match readD2 r4 with
          | none => none
          | some (dy, r5) =>
            if 1 ≤ mo ∧ mo ≤ 12 ∧ 1 ≤ dy ∧ dy ≤ daysInMonth y mo then
              match r5 with
              | [] => some ⟨y, mo, dy⟩
              | sep :: r6 =>
                if sep = 'T' ∨ sep = ' ' then
                  match readD2 r6 with
                  | none => none
                  | some (hh, r7) =>
                    match r7 with
                    | ':' :: r8 =>
                      match readD2 r8 with
                      | none => none
                      | some (mi, r9) =>
                        if hh < 24 ∧ mi < 60 then
                          match parseSecFrac r9 with
                          | none => none
                          | some r10 =>
                            match parseOffset r10 with
                            | none => none
                            | some off =>
                              some (utcAdjust ⟨y, mo, dy⟩ ((hh : ℤ) * 60 + mi - off))
                        else none
                    | _ => none
                else none
            else none
        | _ => none
    | _ => none

/-- A `published` cell as seen by the timestamp parser: missing cells are
`NaT`, strings are parsed leniently. -/
def parseCellTS : Value → Option Date
  | .str s => parseTimestamp s
  | _ => none

/-- `parse_published` of `demo/basic_stats.py` (composed with the date
truncation of `make_plots`): the parsed calendar date of each row of the
`published` column, `df.get` defaulting to the empty column. -/
def parse_published (df : DF) : List (Option Date) :=
  (df.get "published").map parseCellTS

/-- Ascending comparison of dates by their numeric key. -/
def dateLe (a b : Date) : Bool :=
  decide (a.key ≤ b.key)

/-- The per-day aggregate of `make_plots`:
`value_counts()` drops the unparsed rows (`NaT`), counts each distinct date,
and `sort_index()` puts the keys in ascending date order. -/
def dailyCounts (parsed : List (Option Date)) : List (Date × ℕ) :=
  (insSort dateLe (uniqFS [] (parsed.filterMap id))).map
    (fun dt => (dt, (parsed.filterMap id).count dt))

/-! ### Category ranking -/

/-- Model of `df["source"].fillna("(unknown)").astype(str)` on one cell. -/
def fillUnknown : Value → String
  | .null => "(unknown)"
  | v => pyStr v

/-- Total order realising the stable descending `value_counts` order on
(first-seen index, value, count) triples: larger counts first, ties by
first-seen index. -/
def rankLe (a b : ℕ × String × ℕ) : Bool :=
  decide (b.2.2 < a.2.2) || (decide (a.2.2 = b.2.2) && decide (a.1 ≤ b.1))

/-- Model of `Series.value_counts()`: pair every first-seen-unique value
with its number of occurrences, sorted descending by count with ties in
first-seen order. -/
def valueCounts (xs : List String) : List (String × ℕ) :=
  (insSort rankLe ((uniqFS [] xs).enum.map (fun p => (p.1, p.2, xs.count p.2)))).map
    (fun t => (t.2.1, t.2.2))

/-- Top sources of `make_plots` / `write_report`:
`df["source"].fillna("(unknown)").astype(str).value_counts().head(10)`. -/
def topSources (sources : List Value) : List (String × ℕ) :=
  (valueCounts (sources.map fillUnknown)).take 10

/-! ### Distribution summary (model of `Series.describe`) -/

/-- Floor of a rational as integer division of numerator by denominator;
kept explicit so that concrete instances evaluate inside the kernel. -/
def ratFloor (q : ℚ) : ℤ :=
  q.num / q.den

/-- Ceiling of a rational, from `ratFloor`. -/
def ratCeil (q : ℚ) : ℤ :=
  -ratFloor (-q)

/-- Python `int()` on a (non-NaN) number: truncation toward zero. -/
def pyTrunc (q : ℚ) : ℤ :=
  if 0 ≤ q then ratFloor q else ratCeil q

/-- Round to the nearest integer, ties to the even integer — the rounding of
Python's `round`. -/
def roundHalfEven (q : ℚ) : ℤ :=
  if q - ratFloor q < 1 / 2 then ratFloor q
  else if 1 / 2 < q - ratFloor q then ratFloor q + 1
  else if ratFloor q % 2 = 0 then ratFloor q else ratFloor q + 1

/-- Model of Python `round(x, 2)`: round to the nearest hundredth (the
source's mean is displayed this way). -/
def pyRound2 (q : ℚ) : ℚ :=
  (roundHalfEven (100 * q) : ℚ) / 100

/-- Linear-interpolation percentile of pandas `describe`/`quantile` over the
sorted values: position `q * (n - 1)`, interpolating between the two
neighbouring order statistics. -/
def quantile (wc : List ℕ) (q : ℚ) : ℚ :=
  match insSort (fun a b => decide (a ≤ b)) wc with
  | [] => 0
  | x :: xs =>
    let h : ℚ := q * (((x :: xs).length : ℚ) - 1)
    let lo := (ratFloor h).toNat
    let hi := (ratCeil h).toNat
    let a : ℚ := ((x :: xs).getD lo 0 : ℕ)
    let b : ℚ := ((x :: xs).getD hi 0 : ℕ)
    a + (h - (lo : ℚ)) * (b - a)

/-- The fields of `describe(percentiles=[.25, .5, .75, .9, .95])` that the
report reads; `none` models `NaN` (the value of every statistic of an empty
column). -/
structure Describe where
  dmin : Option ℚ
  dp25 : Option ℚ
  dp50 : Option ℚ
  dp75 : Option ℚ
  dp90 : Option ℚ
  dp95 : Option ℚ
  dmax : Option ℚ
  dmean : Option ℚ
deriving DecidableEq

/-- Model of `df["word_count"].describe(percentiles=[.25, .5, .75, .9, .95])`:
minimum, the five requested percentiles, maximum and mean of the column;
every statistic of an empty column is `NaN`. -/
def describe (wc : List ℕ) : Describe :=
  match wc with
  | [] => ⟨none, none, none, none, none, none, none, none⟩
  | x :: xs =>
    { dmin := some ((xs.foldl Nat.min x : ℕ) : ℚ)
      dp25 := some (quantile (x :: xs) (1 / 4))
      dp50 := some (quantile (x :: xs) (1 / 2))
      dp75 := some (quantile (x :: xs) (3 / 4))
      dp90 := some (quantile (x :: xs) (9 / 10))
      dp95 := some (quantile (x :: xs) (19 / 20))
      dmax := some ((xs.foldl Nat.max x : ℕ) : ℚ)
      dmean := some (((x :: xs).sum : ℚ) / ((x :: xs).length : ℚ)) }

/-- Index of the `describe` result (count, mean, std, minimum, the requested
percentiles, maximum) — the keys the report's `in`/`get` probes see. -/
def describeKeys : List String :=
  ["count", "mean", "std", "min", "25%", "50%", "75%", "90%", "95%", "max"]

/-- Python `int(x)` on a describe cell: truncates a number, raises
`ValueError` on `NaN`. -/
def pyIntOfCell : Option ℚ → Except String ℤ
  | some q => .ok (pyTrunc q)
  | none => .error "ValueError: cannot convert float NaN to integer"

/-- A displayed metric value: a Python `int` or a Python `float`. -/
inductive Disp where
  | int : ℤ → Disp
  | float : ℚ → Disp
deriving DecidableEq

/-- The metric rows of the report's word-count summary table, exactly as
`write_report` builds them: `min` and `max` are guarded against `NaN`
(falling back to 0), the `25%`/`50%`/`75%` probes test key membership (not
`NaN`-ness) before calling `int`, the `90%`/`95%` probes `get` the (always
present) key, and the mean is guarded and rounded to two decimals. -/
def metricRows (wc : List ℕ) : Except String (List (String × Disp)) :=
  (pyIntOfCell (if "25%" ∈ describeKeys then (describe wc).dp25 else some 0)).bind fun v25 =>
  (pyIntOfCell (if "50%" ∈ describeKeys then (describe wc).dp50 else some 0)).bind fun v50 =>
  (pyIntOfCell (if "75%" ∈ describeKeys then (describe wc).dp75 else some 0)).bind fun v75 =>
  (pyIntOfCell ((describe wc).dp90)).bind fun v90 =>
  (pyIntOfCell ((describe wc).dp95)).bind fun v95 =>
  .ok [("min", .int (match (describe wc).dmin with | some q => pyTrunc q | none => 0)),
       ("25%", .int v25),
       ("median", .int v50),
       ("75%", .int v75),
       ("90%", .int v90),
       ("95%", .int v95),
       ("max", .int (match (describe wc).dmax with | some q => pyTrunc q | none => 0)),
       ("mean", .float (match (describe wc).dmean with | some q => pyRound2 q | none => pyRound2 0))]

/-! ### Report rendering -/

/-- Model of the Python `repr` of a float that is an exact two-decimal
value (the rounded mean): shortest decimal form, keeping at least one
fractional digit. -/
def renderFloat2 (q : ℚ) : String :=
  let k := (ratFloor (|q| * 100)).toNat
  let ip := k / 100
  let fr := k % 100
  let core :=
    if fr = 0 then natToString ip ++ ".0"
    else if fr % 10 = 0 then natToString ip ++ "." ++ natToString (fr / 10)
    else natToString ip ++ "." ++ (if fr < 10 then "0" ++ natToString fr else natToString fr)
  if q < 0 then "-" ++ core else core

/-- Render a displayed metric value the way the f-string does. -/
def renderDisp : Disp → String
  | .int z => intToString z
  | .float q => renderFloat2 q

/-- A markdown table data line `| a | b |` of the report. -/
def tableLine (a b : String) : String :=
  "| " ++ (a ++ " | " ++ b ++ " |")

/-- The histogram image reference of the report. -/
def histRef : String :=
  "![Word count histogram](word_count_hist.png)"

/-- The top-sources bar chart image reference of the report. -/
def srcRef : String :=
  "![Top sources bar chart](top_sources_bar.png)"

/-- The articles-per-day line chart image reference of the report. -/
def dayRef : String :=
  "![Articles per day](articles_per_day.png)"

/-- The lines of the markdown report, exactly as `write_report` appends
them (the file itself is their newline join).  `wc` is the `word_count`
column (one entry per article row, so `wc.length` is the article count) and
`sources` the `source` column.  Building the metric rows can raise (see
`metricRows`); everything else is pure. -/
def reportLines (wc : List ℕ) (sources : List Value) (outputCsvName : String) :
    Except String (List String) :=
  (metricRows wc).map fun rows =>
    ["# Basic Stats Report\n", "",
     "- Total articles: " ++ natToString wc.length,
     "- Output CSV with word counts: `" ++ outputCsvName ++ "`",
     "", "## Word count summary", "", "| metric | value |", "|---|---:|"]
    ++ rows.map (fun r => tableLine r.1 (renderDisp r.2))
    ++ ["", "### Histogram of word counts", "", histRef, "", "## Top sources", "",
        "| source | articles |", "|---|---:|"]
    ++ (topSources sources).map (fun p => tableLine p.1 (natToString p.2))
    ++ ["", srcRef, "", "## Articles per day", "", dayRef, ""]

/-! ### Cell-level CSV round trip -/

/-- The missing-value sentinels of the CSV reader (a representative subset
of the pandas defaults). -/
def naSentinels : List String :=
  ["", "NA", "N/A", "NaN", "nan", "null", "NULL"]

/-- Model of `to_csv` on one cell: missing cells write as the empty field,
strings write verbatim (quoting is the CSV layer's concern and is
transparent here), integers write in decimal. -/
def writeCell : Value → String
  | .null => ""
  | .str s => s
  | .nat n => natToString n

/-- Model of `read_csv` type inference on one cell: missing-value sentinels
become `NaN`, digit strings become integers, everything else stays a
string. -/
def readCell (s : String) : Value :=
  if s ∈ naSentinels then .null
  else
    match parseNat? s with
    | some n => .nat n
    | none => .str s

/-- Model of `to_csv(index=False)` at the table level: every column is
serialised cell by cell (the on-disk row/column layout is immaterial to the
claims, so the column orientation is kept). -/
def writeCsv (df : DF) : List (String × List String) :=
  df.cols.map (fun p => (p.1, p.2.map writeCell))

/-- Model of `read_csv` at the table level: every cell is re-read with type
inference. -/
def readCsv (g : List (String × List String)) : DF :=
  ⟨g.map (fun p => (p.1, p.2.map readCell))⟩

/-! ### The `main` entry point -/

/-- Extract the integer word counts from the derived column (the deriver
writes `Value.nat` cells). -/
def wcNat : Value → ℕ
  | .nat n => n
  | _ => 0

/-- The output files a successful run writes: the augmented CSV, the three
charts, and the report. -/
def outputFiles : List String :=
  ["trump_xi_meeting_fulltext_with_wordcount.csv", "word_count_hist.png",
   "top_sources_bar.png", "articles_per_day.png", "basic_stats_report.md"]

/-- Control flow of `main` in `demo/basic_stats.py` over an abstract input
state: when the input path does not exist the error is reported and the
process returns status 2 with no output file written (the output directory
itself is created beforehand, but holds nothing); otherwise the pipeline
runs — deriving word counts and composing the report can raise — and a
completed run returns status 0 having written the five output files. -/
def runMain (inputExists : Bool) (df : DF) : Except String (ℕ × List String) :=
  if inputExists then
    (add_word_count df).bind fun dfwc =>
      (reportLines ((dfwc.get "word_count").map wcNat) (dfwc.get "source")
        "trump_xi_meeting_fulltext_with_wordcount.csv").map fun _ => (0, outputFiles)
  else .ok (2, [])

/-! ### Lemmas about the sorting and enumeration helpers -/

theorem mem_insertLe (le : α → α → Bool) (x y : α) (l : List α) :
    y ∈ insertLe le x l ↔ y = x ∨ y ∈ l := by
  induction l with
  | nil => simp [insertLe]
  | cons z zs ih =>
    cases hxz : le x z with
    | true => simp [insertLe, hxz]
    | false =>
      simp only [insertLe, hxz, Bool.false_eq_true, if_false, List.mem_cons, ih]
      tauto

theorem perm_insertLe (le : α → α → Bool) (x : α) (l : List α) :
    List.Perm (insertLe le x l) (x :: l) := by
  induction l with
  | nil => exact List.Perm.refl _
  | cons z zs ih =>
    cases hxz : le x z with
    | true => simp [insertLe, hxz]
    | false =>
      simp only [insertLe, hxz, Bool.false_eq_true, if_false]
      exact (ih.cons z).trans (List.Perm.swap x z zs)

theorem pairwise_insertLe {le : α → α → Bool}
    (htot : ∀ a b, le a b = true ∨ le b a = true)
    (htr : ∀ a b c, le a b = true → le b c = true → le a c = true)
    (x : α) {l : List α} (h : l.Pairwise (fun a b => le a b = true)) :
    (insertLe le x l).Pairwise (fun a b => le a b = true) := by
  induction l with
  | nil => simp [insertLe]
  | cons z zs ih =>
    rcases List.pairwise_cons.mp h with ⟨hz, hzs⟩
    cases hxz : le x z with
    | true =>
      rw [insertLe, if_pos hxz]
      refine List.pairwise_cons.mpr ⟨?_, h⟩
      intro b hb
      rcases List.mem_cons.mp hb with rfl | hb
      · exact hxz
      · exact htr x z b hxz (hz b hb)
    | false =>
      rw [insertLe, if_neg (by simp [hxz])]
      refine List.pairwise_cons.mpr ⟨?_, ih hzs⟩
      intro b hb
      rcases (mem_insertLe le x b zs).mp hb with hbx | hb
      · subst hbx
        rcases htot b z with h1 | h1
        · exact absurd h1 (by simp [hxz])
        · exact h1
      · exact hz b hb

theorem perm_insSort (le : α → α → Bool) (l : List α) :
    List.Perm (insSort le l) l := by
  induction l with
  | nil => exact List.Perm.refl _
  | cons x xs ih =>
    exact (perm_insertLe le x (insSort le xs)).trans (ih.cons x)

theorem pairwise_insSort {le : α → α → Bool}
    (htot : ∀ a b, le a b = true ∨ le b a = true)
    (htr : ∀ a b c, le a b = true → le b c = true → le a c = true)
    (l : List α) :
    (insSort le l).Pairwise (fun a b => le a b = true) := by
  induction l with
  | nil => simp [insSort]
  | cons x xs ih => exact pairwise_insertLe htot htr x ih

theorem mem_insSort (le : α → α → Bool) (l : List α) (y : α) :
    y ∈ insSort le l ↔ y ∈ l :=
  (perm_insSort le l).mem_iff

theorem mem_uniqFS [DecidableEq α] (xs : List α) :
    ∀ (seen : List α) (a : α), a ∈ uniqFS seen xs ↔ a ∈ xs ∧ a ∉ seen := by
  induction xs with
  | nil => simp [uniqFS]
  | cons x xs ih =>
    intro seen a
    by_cases hx : x ∈ seen
    · rw [uniqFS, if_pos hx, ih]
      by_cases hax : a = x
      · subst hax; simp [hx]
      · simp [hax]
    · rw [uniqFS, if_neg hx]
      simp only [List.mem_cons, ih, List.mem_cons]
      by_cases hax : a = x
      · subst hax; simp [hx]
      · simp [hax]

theorem nodup_uniqFS [DecidableEq α] (xs : List α) :
    ∀ seen : List α, (uniqFS seen xs).Nodup := by
  induction xs with
  | nil => intro seen; simp [uniqFS]
  | cons x xs ih =>
    intro seen
    by_cases hx : x ∈ seen
    · rw [uniqFS, if_pos hx]; exact ih seen
    · rw [uniqFS, if_neg hx]
      refine List.nodup_cons.mpr ⟨?_, ih (x :: seen)⟩
      intro hc
      exact ((mem_uniqFS xs (x :: seen) x).mp hc).2 (List.mem_cons_self x seen)

/-! ### Correctness of the decimal rendering and parsing -/

theorem natDigsAux_eq : ∀ fuel n : ℕ, n ≤ fuel → natDigsAux fuel n = Nat.digits 10 n := by
  intro fuel
  induction fuel with
  | zero =>
    intro n hn
    interval_cases n
    simp [natDigsAux]
  | succ fuel ih =>
    intro n hn
    by_cases h0 : n = 0
    · simp [natDigsAux, h0]
    · rw [natDigsAux, if_neg h0, Nat.digits_def' (by norm_num : 1 < 10) (Nat.pos_of_ne_zero h0)]
      rw [ih (n / 10) ?_]
      have h1 : n / 10 < n := Nat.div_lt_self (Nat.pos_of_ne_zero h0) (by norm_num)
      omega

theorem digitChar_isDigit {d : ℕ} (h : d < 10) : (digitChar d).isDigit = true := by
  interval_cases d <;> decide

theorem digitChar_toNat {d : ℕ} (h : d < 10) : (digitChar d).toNat - 48 = d := by
  interval_cases d <;> decide

theorem parseNatAux_digits :
    ∀ (ds : List ℕ), (∀ d ∈ ds, d < 10) → ∀ acc : ℕ,
      parseNatAux acc (ds.map digitChar) =
        some (acc * 10 ^ ds.length + Nat.ofDigits 10 ds.reverse) := by
  intro ds
  induction ds with
  | nil => intro _ acc; simp [parseNatAux, Nat.ofDigits]
  | cons d ds ih =>
    intro hlt acc
    have hd : d < 10 := hlt d (List.mem_cons_self d ds)
    have hds : ∀ e ∈ ds, e < 10 := fun e he => hlt e (List.mem_cons_of_mem d he)
    rw [List.map_cons, parseNatAux, if_pos (digitChar_isDigit hd), digitChar_toNat hd,
      ih hds (acc * 10 + d)]
    congr 1
    rw [List.reverse_cons, Nat.ofDigits_append, Nat.ofDigits_singleton]
    simp only [List.length_cons, List.length_reverse]
    ring

theorem natToString_zero : natToString 0 = "0" := rfl

theorem natToString_pos_data {n : ℕ} (h : n ≠ 0) :
    (natToString n).data = ((Nat.digits 10 n).reverse).map digitChar := by
  rw [natToString, if_neg h, natDigsAux_eq n n le_rfl]

theorem natToString_all_digits (n : ℕ) :
    ∀ c ∈ (natToString n).data, c.isDigit = true := by
  by_cases h : n = 0
  · subst h; intro c hc
    have h1 : "0".data = ['0'] := rfl
    rw [natToString_zero, h1] at hc
    rcases List.mem_cons.mp hc with h0 | h0
    · subst h0; decide
    · simp at h0
  · rw [natToString_pos_data h]
    intro c hc
    rcases List.mem_map.mp hc with ⟨d, hd, rfl⟩
    exact digitChar_isDigit (Nat.digits_lt_base (by norm_num) (List.mem_reverse.mp hd))

theorem natToString_data_ne_nil (n : ℕ) : (natToString n).data ≠ [] := by
  by_cases h : n = 0
  · subst h; rw [natToString_zero]; decide
  · rw [natToString_pos_data h]
    simp only [ne_eq, List.map_eq_nil_iff, List.reverse_eq_nil_iff]
    exact Nat.digits_ne_nil_iff_ne_zero.mpr h

theorem parseNat_natToString (n : ℕ) : parseNat? (natToString n) = some n := by
  by_cases h : n = 0
  · subst h; rfl
  · have hdata := natToString_pos_data h
    have hlt : ∀ d ∈ (Nat.digits 10 n).reverse, d < 10 := fun d hd =>
      Nat.digits_lt_base (by norm_num) (List.mem_reverse.mp hd)
    have hmain := parseNatAux_digits ((Nat.digits 10 n).reverse) hlt 0
    rcases hne : ((Nat.digits 10 n).reverse).map digitChar with _ | ⟨c, cs⟩
    · exfalso
      exact natToString_data_ne_nil n (by rw [hdata, hne])
    · rw [parseNat?, hdata, hne]
      show parseNatAux 0 (c :: cs) = some n
      rw [← hne, hmain]
      simp [Nat.ofDigits_digits]

/-! ### Lemmas about cells and the data frame -/

theorem natToString_ne_of_nondigit {t : String} {c : Char} (hc : c ∈ t.data)
    (hcd : c.isDigit = false) (n : ℕ) : natToString n ≠ t := by
  intro h
  have hd := natToString_all_digits n c (h ▸ hc)
  rw [hcd] at hd
  cases hd

theorem natToString_not_sentinel (n : ℕ) : natToString n ∉ naSentinels := by
  intro h
  have h7 : natToString n = "" ∨ natToString n = "NA" ∨ natToString n = "N/A" ∨
      natToString n = "NaN" ∨ natToString n = "nan" ∨ natToString n = "null" ∨
      natToString n = "NULL" := by simpa [naSentinels] using h
  rcases h7 with h | h | h | h | h | h | h
  · exact natToString_data_ne_nil n (congrArg String.data h)
  · exact natToString_ne_of_nondigit (t := "NA") (c := 'N') (by decide) (by decide) n h
  · exact natToString_ne_of_nondigit (t := "N/A") (c := 'N') (by decide) (by decide) n h
  · exact natToString_ne_of_nondigit (t := "NaN") (c := 'N') (by decide) (by decide) n h
  · exact natToString_ne_of_nondigit (t := "nan") (c := 'n') (by decide) (by decide) n h
  · exact natToString_ne_of_nondigit (t := "null") (c := 'u') (by decide) (by decide) n h
  · exact natToString_ne_of_nondigit (t := "NULL") (c := 'U') (by decide) (by decide) n h

theorem readCell_writeCell_nat (n : ℕ) :
    readCell (writeCell (Value.nat n)) = Value.nat n := by
  rw [writeCell, readCell, if_neg (natToString_not_sentinel n), parseNat_natToString]

theorem mapCols_find? (f : List Value → List Value) (cols : List (String × List Value))
    (nm : String) :
    (cols.map (fun p => (p.1, f p.2))).find? (fun p => p.1 = nm)
      = (cols.find? (fun p => p.1 = nm)).map (fun p => (p.1, f p.2)) := by
  induction cols with
  | nil => rfl
  | cons q qs ih =>
    by_cases hq : q.1 = nm
    · rw [List.map_cons, List.find?_cons_of_pos _ (by simp [hq]),
        List.find?_cons_of_pos _ (by simp [hq]), Option.map_some']
    · rw [List.map_cons, List.find?_cons_of_neg _ (by simp [hq]),
        List.find?_cons_of_neg _ (by simp [hq]), ih]

theorem readCsv_writeCsv_getCol (df : DF) (nm : String) :
    (readCsv (writeCsv df)).getCol nm =
      (df.getCol nm).map (fun col => col.map (fun v => readCell (writeCell v))) := by
  rw [readCsv, writeCsv, DF.getCol, DF.getCol, List.map_map]
  have hcomp :
      ((fun p : String × List String => (p.1, p.2.map readCell)) ∘
        (fun p : String × List Value => (p.1, p.2.map writeCell)))
      = (fun p : String × List Value =>
          (p.1, p.2.map (fun v => readCell (writeCell v)))) := by
    funext p
    simp [Function.comp, List.map_map, Function.comp_def]
  rw [hcomp, mapCols_find? (fun col => col.map (fun v => readCell (writeCell v))) df.cols nm]
  cases hf : df.cols.find? (fun p => p.1 = nm) with
  | none => rfl
  | some p => rfl

theorem find?_overwrite (nm : String) (col : List Value) :
    ∀ cols : List (String × List Value), nm ∈ cols.map Prod.fst →
      (cols.map (fun p => if p.1 = nm then (p.1, col) else p)).find? (fun p => p.1 = nm)
        = some (nm, col) := by
  intro cols
  induction cols with
  | nil => intro h; simp at h
  | cons q qs ih =>
    intro h
    by_cases hq : q.1 = nm
    · rw [List.map_cons, if_pos hq, List.find?_cons_of_pos _ (by simp [hq]), hq]
    · rw [List.map_cons, if_neg hq, List.find?_cons_of_neg _ (by simp [hq])]
      refine ih ?_
      rw [List.map_cons] at h
      rcases List.mem_cons.mp h with h1 | h1
      · exact absurd h1.symm hq
      · exact h1

theorem getCol_setCol (df : DF) (nm : String) (col : List Value) :
    (df.setCol nm col).getCol nm = .ok col := by
  rw [DF.setCol]
  by_cases h : nm ∈ df.names
  · rw [if_pos h, DF.getCol, find?_overwrite nm col df.cols h]
  · rw [if_neg h, DF.getCol, List.find?_append]
    have h1 : df.cols.find? (fun p => p.1 = nm) = none := by
      rw [List.find?_eq_none]
      intro x hx hp
      exact h (List.mem_map.mpr ⟨x, hx, by simpa using hp⟩)
    rw [h1, List.find?_cons_of_pos _ (by simp), Option.none_or]

/-! ### Lemmas about rounding and the metric rows -/

theorem ratFloor_eq (q : ℚ) : ratFloor q = ⌊q⌋ :=
  Rat.floor_def.symm

theorem ratCeil_eq (q : ℚ) : ratCeil q = ⌈q⌉ := by
  rw [ratCeil, ratFloor_eq, Int.floor_neg, neg_neg]

theorem roundHalfEven_close (q : ℚ) : |(roundHalfEven q : ℚ) - q| ≤ 1 / 2 := by
  have h1 : (⌊q⌋ : ℚ) ≤ q := Int.floor_le q
  have h2 : q < ⌊q⌋ + 1 := Int.lt_floor_add_one q
  rw [roundHalfEven]
  simp only [ratFloor_eq]
  split_ifs with ha hb hc <;> rw [abs_le] <;> constructor <;> push_cast <;>
    first
      | linarith
      | linarith [not_lt.mp ha]
      | linarith [not_lt.mp ha, not_lt.mp hb]

theorem pyRound2_hundredth (q : ℚ) : ∃ k : ℤ, pyRound2 q = (k : ℚ) / 100 :=
  ⟨roundHalfEven (100 * q), rfl⟩

theorem pyRound2_close (q : ℚ) : |pyRound2 q - q| ≤ 1 / 200 := by
  have h := roundHalfEven_close (100 * q)
  rw [pyRound2]
  have heq : (roundHalfEven (100 * q) : ℚ) / 100 - q
      = ((roundHalfEven (100 * q) : ℚ) - 100 * q) / 100 := by ring
  rw [heq, abs_div, abs_of_pos (by norm_num : (0:ℚ) < 100)]
  linarith

theorem metricRows_cons (x : ℕ) (xs : List ℕ) :
    metricRows (x :: xs) = .ok
      [("min", .int (pyTrunc ((xs.foldl Nat.min x : ℕ) : ℚ))),
       ("25%", .int (pyTrunc (quantile (x :: xs) (1 / 4)))),
       ("median", .int (pyTrunc (quantile (x :: xs) (1 / 2)))),
       ("75%", .int (pyTrunc (quantile (x :: xs) (3 / 4)))),
       ("90%", .int (pyTrunc (quantile (x :: xs) (9 / 10)))),
       ("95%", .int (pyTrunc (quantile (x :: xs) (19 / 20)))),
       ("max", .int (pyTrunc ((xs.foldl Nat.max x : ℕ) : ℚ))),
       ("mean", .float (pyRound2 (((x :: xs).sum : ℚ) / ((x :: xs).length : ℚ))))] := rfl

/-! ### Lemmas about report lines -/

/-- Is a report line one of the three chart references? -/
def isChartRef (l : String) : Bool :=
  decide (l = histRef) || decide (l = srcRef) || decide (l = dayRef)

theorem head_append2 {A : String} {c : Char} {cs : List Char} (hA : A.data = c :: cs)
    (B : String) : (A ++ B).data.head? = some c := by
  rw [String.data_append, hA]
  rfl

theorem data_append_cons {A : String} {c : Char} {cs : List Char} (hA : A.data = c :: cs)
    (B : String) : (A ++ B).data = c :: (cs ++ B.data) := by
  rw [String.data_append, hA]
  rfl

theorem isChartRef_false_of_head {s : String} {c : Char} (hs : s.data.head? = some c)
    (hc : c ≠ '!') : isChartRef s = false := by
  have h1 : s ≠ histRef := by
    intro h
    rw [h] at hs
    simp only [show histRef.data.head? = some '!' from rfl] at hs
    exact hc (Option.some.inj hs).symm
  have h2 : s ≠ srcRef := by
    intro h
    rw [h] at hs
    simp only [show srcRef.data.head? = some '!' from rfl] at hs
    exact hc (Option.some.inj hs).symm
  have h3 : s ≠ dayRef := by
    intro h
    rw [h] at hs
    simp only [show dayRef.data.head? = some '!' from rfl] at hs
    exact hc (Option.some.inj hs).symm
  simp [isChartRef, h1, h2, h3]

theorem isChartRef_tableLine (a b : String) : isChartRef (tableLine a b) = false :=
  isChartRef_false_of_head (head_append2 (rfl : "| ".data = '|' :: [' ']) _) (by decide)

/-! ### Total-order facts for the concrete sort relations -/

theorem rankLe_total : ∀ a b : ℕ × String × ℕ, rankLe a b = true ∨ rankLe b a = true := by
  intro a b
  rcases lt_trichotomy a.2.2 b.2.2 with h1 | h1 | h1
  · right; simp [rankLe, h1]
  · rcases Nat.le_total a.1 b.1 with h2 | h2
    · left; simp [rankLe, h1, h2]
    · right; simp [rankLe, h1.symm, h2]
  · left; simp [rankLe, h1]

theorem rankLe_trans : ∀ a b c : ℕ × String × ℕ,
    rankLe a b = true → rankLe b c = true → rankLe a c = true := by
  intro a b c hab hbc
  simp only [rankLe, Bool.or_eq_true, Bool.and_eq_true, decide_eq_true_eq] at *
  rcases hab with h1 | ⟨h1, h2⟩ <;> rcases hbc with h3 | ⟨h3, h4⟩
  · left; omega
  · left; omega
  · left; omega
  · exact Or.inr ⟨h1.trans h3, le_trans h2 h4⟩

theorem dateLe_total : ∀ a b : Date, dateLe a b = true ∨ dateLe b a = true := by
  intro a b
  simp only [dateLe, decide_eq_true_eq]
  omega

theorem dateLe_trans : ∀ a b c : Date,
    dateLe a b = true → dateLe b c = true → dateLe a c = true := by
  intro a b c
  simp only [dateLe, decide_eq_true_eq]
  omega

theorem lexLe_total : ∀ as bs : List Char, lexLe as bs = true ∨ lexLe bs as = true := by
  intro as
  induction as with
  | nil => intro bs; left; rfl
  | cons a as ih =>
    intro bs
    cases bs with
    | nil => right; rfl
    | cons b bs =>
      rcases Nat.lt_trichotomy a.toNat b.toNat with h | h | h
      · left
        rw [lexLe, if_pos h]
      · rcases ih bs with h1 | h1
        · left
          rw [lexLe, if_neg (by omega), if_neg (by omega)]
          exact h1
        · right
          rw [lexLe, if_neg (by omega), if_neg (by omega)]
          exact h1
      · right
        rw [lexLe, if_pos h]

theorem lexLe_trans : ∀ as bs cs : List Char,
    lexLe as bs = true → lexLe bs cs = true → lexLe as cs = true := by
  intro as
  induction as with
  | nil => intro bs cs _ _; rfl
  | cons a as ih =>
    intro bs cs hab hbc
    cases bs with
    | nil => rw [lexLe] at hab; cases hab
    | cons b bs =>
      cases cs with
      | nil => rw [lexLe] at hbc; cases hbc
      | cons c cs =>
        rcases Nat.lt_trichotomy a.toNat b.toNat with h1 | h1 | h1
        · rcases Nat.lt_trichotomy b.toNat c.toNat with h2 | h2 | h2
          · rw [lexLe, if_pos (by omega)]
          · rw [lexLe, if_pos (by omega)]
          · rw [lexLe, if_neg (by omega), if_pos (by omega)] at hbc
            cases hbc
        · rcases Nat.lt_trichotomy b.toNat c.toNat with h2 | h2 | h2
          · rw [lexLe, if_pos (by omega)]
          · rw [lexLe, if_neg (by omega), if_neg (by omega)]
            rw [lexLe, if_neg (by omega), if_neg (by omega)] at hab
            rw [lexLe, if_neg (by omega), if_neg (by omega)] at hbc
            exact ih bs cs hab hbc
          · rw [lexLe, if_neg (by omega), if_pos (by omega)] at hbc
            cases hbc
        · rw [lexLe, if_neg (by omega), if_pos (by omega)] at hab
          cases hab

theorem strLe_total : ∀ a b : String, strLe a b = true ∨ strLe b a = true :=
  fun a b => lexLe_total a.data b.data

theorem strLe_trans : ∀ a b c : String,
    strLe a b = true → strLe b c = true → strLe a c = true :=
  fun a b c => lexLe_trans a.data b.data c.data

/-! ### The claims -/

/-- C1: the word-count deriver is a pure total function — it maps a missing
value to 0, a blank-after-stripping text to 0, and any other value to the
number of whitespace-delimited tokens, which is a non-negative integer; in
particular `word_count(None) = 0`, `word_count("") = 0`,
`word_count("   ") = 0` and `word_count("a b  c") = 3`.  Totality (it never
raises) holds by construction: `safe_word_count` is a total Lean function
into `ℕ`. -/
theorem C1_word_count_pure_total :
    safe_word_count Value.null = 0 ∧
    safe_word_count (Value.str "") = 0 ∧
    safe_word_count (Value.str "   ") = 0 ∧
    safe_word_count (Value.str "a b  c") = 3 ∧
    ∀ v : Value, 0 ≤ safe_word_count v :=
  ⟨rfl, by decide, by decide, by decide, fun v => Nat.zero_le _⟩

/-- C2: contrary to the claim, the Distribution Summary of an empty table is
not all zeros — building the report's metric rows raises `ValueError`: for
zero rows `describe` yields `NaN` percentiles, and the source guards the
`25%`/`50%`/`75%` entries with a key-membership test (always true) instead
of a `NaN` test before calling `int()`, so `int(NaN)` raises.  The guarded
`min`/`max`/`mean` entries show the all-zero intent of the spec. -/
theorem C2_empty_table_metric_rows_raise :
    metricRows [] = Except.error "ValueError: cannot convert float NaN to integer" := rfl

/-- C7: when the input file path does not exist, `main` reports the error,
returns the distinct status 2, and no output file has been written. -/
theorem C7_missing_input_exits_2 (df : DF) : runMain false df = .ok (2, []) := rfl

/-- C5: category ranking — null sources are replaced by the "(unknown)"
sentinel before counting, every distinct value is counted, the ranking is
descending by count (ties by first-seen order, realised by the total order
`rankLe` on first-seen-indexed triples) and truncated to the top 10; on
`["A","A","B",None,None,"A"]` the top two entries are `("A",3)` and
`("(unknown)",2)`. -/
theorem C5_category_ranking :
    ((topSources [Value.str "A", Value.str "A", Value.str "B", Value.null, Value.null,
        Value.str "A"]).take 2 = [("A", 3), ("(unknown)", 2)]) ∧
    ∀ sources : List Value,
      (topSources sources).length ≤ 10 ∧
      (topSources sources).Pairwise (fun a b => b.2 ≤ a.2) := by
  constructor
  · decide
  · intro sources
    constructor
    · rw [topSources]
      simpa using Nat.min_le_left 10 _
    · rw [topSources]
      refine List.Pairwise.sublist (List.take_sublist _ _) ?_
      rw [valueCounts]
      rw [List.pairwise_map]
      refine (pairwise_insSort rankLe_total rankLe_trans _).imp ?_
      intro a b hab
      simp only [rankLe, Bool.or_eq_true, Bool.and_eq_true, decide_eq_true_eq] at hab
      rcases hab with h | ⟨h, _⟩
      · exact le_of_lt h
      · exact le_of_eq h.symm

/-- The example table of the Daily Counts property: a `published` column
with the four timestamps of the spec. -/
def pubDF : DF :=
  ⟨[("published", [Value.str "2024-01-01T10:00Z", Value.str "2024-01-01T23:00Z",
     Value.str "bad-date", Value.str "2024-01-02T00:00Z"])]⟩

/-- C4: daily counts — every `published` cell is parsed leniently into a
timezone-naive calendar date, rows that fail to parse are silently dropped
from this aggregate only, the remaining rows are grouped by date and
counted (each key's count is the number of rows parsing to it, and a date
is a key exactly when some row parses to it), and the keys are in ascending
date order without duplicates; on `["2024-01-01T10:00Z","2024-01-01T23:00Z",
"bad-date","2024-01-02T00:00Z"]` the aggregate maps 2024-01-01 to 2 and
2024-01-02 to 1. -/
theorem C4_daily_counts :
    (dailyCounts (parse_published pubDF) = [(⟨2024, 1, 1⟩, 2), (⟨2024, 1, 2⟩, 1)]) ∧
    ∀ parsed : List (Option Date),
      (dailyCounts parsed).Pairwise (fun a b => a.1.key ≤ b.1.key) ∧
      ((dailyCounts parsed).map Prod.fst).Nodup ∧
      (∀ p ∈ dailyCounts parsed, p.2 = (parsed.filterMap id).count p.1) ∧
      (∀ dt : Date, (∃ c, (dt, c) ∈ dailyCounts parsed) ↔ some dt ∈ parsed) := by
  constructor
  · decide
  · intro parsed
    refine ⟨?_, ?_, ?_, ?_⟩
    · rw [dailyCounts, List.pairwise_map]
      refine (pairwise_insSort dateLe_total dateLe_trans _).imp ?_
      intro a b hab
      simpa [dateLe] using hab
    · rw [dailyCounts, List.map_map]
      have hid : (Prod.fst ∘ fun dt : Date => (dt, (parsed.filterMap id).count dt)) = id := by
        funext dt; rfl
      rw [hid, List.map_id]
      exact ((perm_insSort dateLe _).nodup_iff).mpr (nodup_uniqFS _ _)
    · intro p hp
      rw [dailyCounts] at hp
      rcases List.mem_map.mp hp with ⟨dt, _, rfl⟩
      rfl
    · intro dt
      constructor
      · rintro ⟨c, hc⟩
        rw [dailyCounts] at hc
        rcases List.mem_map.mp hc with ⟨e, he, heq⟩
        have hde : e = dt := congrArg Prod.fst heq
        subst hde
        have h1 := (mem_insSort dateLe _ e).mp he
        have h2 := ((mem_uniqFS _ [] e).mp h1).1
        rcases List.mem_filterMap.mp h2 with ⟨o, ho, hoe⟩
        rcases o with _ | v
        · cases hoe
        · cases hoe; exact ho
      · intro hdt
        refine ⟨(parsed.filterMap id).count dt, ?_⟩
        rw [dailyCounts]
        refine List.mem_map.mpr ⟨dt, ?_, rfl⟩
        rw [mem_insSort, mem_uniqFS]
        exact ⟨List.mem_filterMap.mpr ⟨some dt, hdt, rfl⟩, List.not_mem_nil dt⟩

/-- A table with the expected columns except `body` (one row). -/
def dfNoBody : DF :=
  ⟨[("title", [Value.str "t"]), ("authors", [Value.null]), ("source", [Value.str "s"]),
    ("url", [Value.null]), ("published", [Value.null]), ("language", [Value.null]),
    ("sentiment", [Value.null])]⟩

/-- C3 counterexample: on a table whose `body` column is absent the loader
does warn (sorted payload `["body"]`), but deriving the word counts then
raises `KeyError: body` instead of treating the column as null and yielding
word count 0 for every row — refuting the claim as stated. -/
theorem C3_missing_body_counterexample :
    loadWarnings dfNoBody = [["body"]] ∧
    add_word_count dfNoBody = Except.error "KeyError: body" :=
  ⟨rfl, rfl⟩

/-- C3 amended: for every input table, the missing-column payload is
exactly the absent expected columns in sorted order; when one or more
expected columns are absent the loader emits exactly one non-fatal warning
carrying that payload (and none otherwise) and loading continues returning
the table; a missing `published` column is indeed tolerated downstream (its
parse result is empty, so the daily counts are empty); but a missing `body`
column is not substituted by nulls — `add_word_count` fails with
`KeyError: body` instead of deriving word count 0 for every row. -/
theorem C3_schema_warning_amended (df : DF) :
    (∀ c, c ∈ sortedMissing df ↔ c ∈ expectedCols ∧ c ∉ df.names) ∧
    (sortedMissing df).Pairwise (fun a b => strLe a b = true) ∧
    (sortedMissing df ≠ [] → loadWarnings df = [sortedMissing df]) ∧
    (sortedMissing df = [] → loadWarnings df = []) ∧
    ("published" ∉ df.names →
      parse_published df = [] ∧ dailyCounts (parse_published df) = []) ∧
    ("body" ∉ df.names → add_word_count df = Except.error "KeyError: body") := by
  refine ⟨?_, ?_, ?_, ?_, ?_, ?_⟩
  · intro c
    rw [sortedMissing, mem_insSort, List.mem_filter]
    simp
  · exact pairwise_insSort strLe_total strLe_trans _
  · intro hne
    rw [loadWarnings, if_neg ?_]
    intro hc
    exact hne (List.isEmpty_iff.mp hc)
  · intro hnil
    rw [loadWarnings, if_pos (List.isEmpty_iff.mpr hnil)]
  · intro hp
    have h1 : df.cols.find? (fun p => p.1 = "published") = none := by
      rw [List.find?_eq_none]
      intro x hx hq
      exact hp (List.mem_map.mpr ⟨x, hx, by simpa using hq⟩)
    have h2 : parse_published df = [] := by
      rw [parse_published, DF.get, h1]
      rfl
    exact ⟨h2, by rw [h2]; rfl⟩
  · intro hb
    have h1 : df.cols.find? (fun p => p.1 = "body") = none := by
      rw [List.find?_eq_none]
      intro x hx hq
      exact hb (List.mem_map.mpr ⟨x, hx, by simpa using hq⟩)
    rw [add_word_count, DF.getCol, h1]
    rfl

/-- A one-column table (only `title`): both `published` and `body` are
among its missing expected columns. -/
def dfTitleOnly : DF :=
  ⟨[("title", [Value.str "t"])]⟩

/-- C3 witness: the amended claim applied to a concrete table, with every
clause-local hypothesis discharged — the warning is emitted with the sorted
payload, the absent `published` column is tolerated (empty daily counts),
and the absent `body` column makes the deriver fail. -/
theorem C3_schema_warning_amended_witness :
    loadWarnings dfTitleOnly = [sortedMissing dfTitleOnly] ∧
    (sortedMissing dfTitleOnly).Pairwise (fun a b => strLe a b = true) ∧
    (parse_published dfTitleOnly = [] ∧ dailyCounts (parse_published dfTitleOnly) = []) ∧
    add_word_count dfTitleOnly = Except.error "KeyError: body" :=
  ⟨(C3_schema_warning_amended dfTitleOnly).2.2.1 (by decide),
   (C3_schema_warning_amended dfTitleOnly).2.1,
   (C3_schema_warning_amended dfTitleOnly).2.2.2.2.1 (by decide),
   (C3_schema_warning_amended dfTitleOnly).2.2.2.2.2 (by decide)⟩

/-- A table that already carries a `word_count` column in first position. -/
def dfPreWC : DF :=
  ⟨[("word_count", [Value.nat 99]), ("body", [Value.str "a b"])]⟩

/-- C6 counterexample: on an input that already has a `word_count` column
the assignment overwrites it in place — the original cell value 99 changes
to 2, the column keeps its input position, and the result is not the input
columns with a `word_count` column appended last. -/
theorem C6_counterexample :
    add_word_count dfPreWC =
      Except.ok ⟨[("word_count", [Value.nat 2]), ("body", [Value.str "a b"])]⟩ ∧
    (DF.mk [("word_count", [Value.nat 2]), ("body", [Value.str "a b"])]).names
      ≠ dfPreWC.names ++ ["word_count"] ∧
    (DF.mk [("word_count", [Value.nat 2]), ("body", [Value.str "a b"])]).cols
      ≠ dfPreWC.cols ++ [("word_count", [Value.nat 2])] :=
  ⟨rfl, by decide, by decide⟩

/-- C6 amended: provided the input table has no `word_count` column, the
augmented table is exactly the input columns — every original cell value
unchanged, in input order — with the derived `word_count` column appended
last. -/
theorem C6_append_amended (df : DF) (body : List Value) (h : "word_count" ∉ df.names)
    (hb : df.getCol "body" = .ok body) :
    add_word_count df = Except.ok
      ⟨df.cols ++ [("word_count", body.map (fun v => Value.nat (safe_word_count v)))]⟩ := by
  rw [add_word_count, hb]
  simp only [Except.map]
  rw [DF.setCol, if_neg h]

/-- A plain two-row table with a `body` column and no `word_count`. -/
def dfSimple : DF :=
  ⟨[("body", [Value.str "hello world", Value.null])]⟩

/-- C6 witness: the amended claim applied to a concrete table. -/
theorem C6_append_amended_witness :
    ("word_count" ∉ dfSimple.names) ∧
    (dfSimple.getCol "body" = .ok [Value.str "hello world", Value.null]) ∧
    add_word_count dfSimple = Except.ok
      ⟨dfSimple.cols ++ [("word_count",
        [Value.str "hello world", Value.null].map (fun v => Value.nat (safe_word_count v)))]⟩ :=
  ⟨by decide, rfl, C6_append_amended dfSimple _ (by decide) rfl⟩

/-- C10: round trip — whenever augmenting a table with word counts
succeeds, writing the augmented table to CSV and re-reading it reproduces
identical `word_count` values for every row (the re-read column equals the
written column, which holds the word counts derived from the body column);
with the pipeline pure, a second run on identical input reproduces the same
values. -/
theorem C10_roundtrip (df a : DF) (h : add_word_count df = Except.ok a) :
    (readCsv (writeCsv a)).getCol "word_count" = a.getCol "word_count" ∧
    ∃ body, df.getCol "body" = .ok body ∧
      a.getCol "word_count" = .ok (body.map (fun v => Value.nat (safe_word_count v))) := by
  rcases hb : df.getCol "body" with e | body
  · rw [add_word_count, hb] at h
    exact absurd h (by simp [Except.map])
  · rw [add_word_count, hb] at h
    simp only [Except.map] at h
    have ha : a = df.setCol "word_count" (body.map fun v => Value.nat (safe_word_count v)) :=
      (Except.ok.inj h).symm
    subst ha
    refine ⟨?_, body, rfl, getCol_setCol df "word_count" _⟩
    rw [readCsv_writeCsv_getCol, getCol_setCol]
    simp only [Except.map, List.map_map]
    have hfun : ((fun v => readCell (writeCell v)) ∘ fun v => Value.nat (safe_word_count v))
        = (fun v => Value.nat (safe_word_count v)) := by
      funext v
      exact readCell_writeCell_nat _
    rw [hfun]

/-- A concrete two-row table for the round-trip witness. -/
def dfRT : DF :=
  ⟨[("body", [Value.str "x y z", Value.null]), ("source", [Value.str "A", Value.null])]⟩

/-- The augmented table of `dfRT`. -/
def aRT : DF :=
  ⟨[("body", [Value.str "x y z", Value.null]), ("source", [Value.str "A", Value.null]),
    ("word_count", [Value.nat 3, Value.nat 0])]⟩

/-- C10 witness: the round trip applied to a concrete table. -/
theorem C10_roundtrip_witness :
    add_word_count dfRT = Except.ok aRT ∧
    ((readCsv (writeCsv aRT)).getCol "word_count" = aRT.getCol "word_count" ∧
      ∃ body, dfRT.getCol "body" = .ok body ∧
        aRT.getCol "word_count" = .ok (body.map (fun v => Value.nat (safe_word_count v)))) :=
  ⟨rfl, C10_roundtrip dfRT aRT rfl⟩

/-- C9: for every non-empty word-count column the report's metric table has
exactly the eight canonical rows in the fixed order min, 25%, median, 75%,
90%, 95%, max, mean; the mean entry displays `round(mean, 2)`, which is an
exact multiple of 1/100 within 1/200 of the true mean. -/
theorem C9_metric_table (wc : List ℕ) (h : wc ≠ []) :
    ∃ rows μ, metricRows wc = Except.ok rows ∧
      rows.map Prod.fst = ["min", "25%", "median", "75%", "90%", "95%", "max", "mean"] ∧
      (describe wc).dmean = some μ ∧
      rows.getLast? = some ("mean", Disp.float (pyRound2 μ)) ∧
      (∃ k : ℤ, pyRound2 μ = (k : ℚ) / 100) ∧
      |pyRound2 μ - μ| ≤ 1 / 200 := by
  rcases wc with _ | ⟨x, xs⟩
  · exact absurd rfl h
  · exact ⟨_, ((x :: xs).sum : ℚ) / ((x :: xs).length : ℚ), metricRows_cons x xs, rfl, rfl,
      rfl, pyRound2_hundredth _, pyRound2_close _⟩

/-- C9 witness: the metric-table property applied to the concrete column
`[0, 10, 20, 30, 40]`. -/
theorem C9_metric_table_witness :
    (([0, 10, 20, 30, 40] : List ℕ) ≠ []) ∧
    (∃ rows μ, metricRows [0, 10, 20, 30, 40] = Except.ok rows ∧
      rows.map Prod.fst = ["min", "25%", "median", "75%", "90%", "95%", "max", "mean"] ∧
      (describe [0, 10, 20, 30, 40]).dmean = some μ ∧
      rows.getLast? = some ("mean", Disp.float (pyRound2 μ)) ∧
      (∃ k : ℤ, pyRound2 μ = (k : ℚ) / 100) ∧
      |pyRound2 μ - μ| ≤ 1 / 200) :=
  ⟨by decide, C9_metric_table [0, 10, 20, 30, 40] (by decide)⟩

theorem head_append_of_ne_nil (A B : String) (h : A.data ≠ []) :
    (A ++ B).data.head? = A.data.head? := by
  rw [String.data_append]
  cases hA : A.data with
  | nil => exact absurd hA h
  | cons c cs => rfl

/-- C8 counterexample: for the empty input table no report text is produced
at all — composing the report raises while building the metric rows — so
the claimed "for every possible input table" fails on the table with zero
rows. -/
theorem C8_counterexample :
    reportLines [] [] "trump_xi_meeting_fulltext_with_wordcount.csv"
      = Except.error "ValueError: cannot convert float NaN to integer" := rfl

/-- C8 amended: for every input table with at least one row the report
lines contain exactly one occurrence of each of the three chart references,
in the fixed order word-count histogram, top-sources bar chart, articles
per day — the lines that are chart references are exactly
`[histRef, srcRef, dayRef]` in that order. -/
theorem C8_chart_refs_amended (wc : List ℕ) (sources : List Value) (csvName : String)
    (h : wc ≠ []) :
    ∃ ls, reportLines wc sources csvName = Except.ok ls ∧
      ls.filter isChartRef = [histRef, srcRef, dayRef] := by
  rcases wc with _ | ⟨x, xs⟩
  · exact absurd rfl h
  have h3 : ∀ n : ℕ, isChartRef ("- Total articles: " ++ natToString n) = false := by
    intro n
    refine isChartRef_false_of_head (c := '-') ?_ (by decide)
    rw [head_append_of_ne_nil _ _ (by decide)]
    rfl
  have h4 : isChartRef ("- Output CSV with word counts: `" ++ csvName ++ "`") = false := by
    refine isChartRef_false_of_head (c := '-') ?_ (by decide)
    rw [head_append_of_ne_nil _ _ ?_]
    · rw [head_append_of_ne_nil _ _ (by decide)]
      rfl
    · rw [String.data_append]
      intro hc
      exact absurd (List.append_eq_nil.mp hc).1 (by decide)
  cases hr : reportLines (x :: xs) sources csvName with
  | error e =>
    rw [reportLines, metricRows_cons] at hr
    exact absurd hr (by simp [Except.map])
  | ok ls =>
    refine ⟨ls, rfl, ?_⟩
    rw [reportLines, metricRows_cons] at hr
    simp only [Except.map] at hr
    rw [← Except.ok.inj hr]
    have hA : List.filter isChartRef
        ["# Basic Stats Report\n", "",
         "- Total articles: " ++ natToString (x :: xs).length,
         "- Output CSV with word counts: `" ++ csvName ++ "`",
         "", "## Word count summary", "", "| metric | value |", "|---|---:|"] = [] := by
      refine List.filter_eq_nil.mpr ?_
      intro a ha
      simp only [List.mem_cons, List.not_mem_nil, or_false] at ha
      rcases ha with rfl | rfl | rfl | rfl | rfl | rfl | rfl | rfl | rfl
      · decide
      · decide
      · simp [h3]
      · simp [h4]
      · decide
      · decide
      · decide
      · decide
      · decide
    have h1 : ∀ rows : List (String × Disp),
        List.filter isChartRef (rows.map (fun r => tableLine r.1 (renderDisp r.2))) = [] := by
      intro rows
      refine List.filter_eq_nil.mpr ?_
      intro a ha
      rcases List.mem_map.mp ha with ⟨r, _, rfl⟩
      simp [isChartRef_tableLine]
    have h2 : List.filter isChartRef
        ((topSources sources).map (fun p => tableLine p.1 (natToString p.2))) = [] := by
      refine List.filter_eq_nil.mpr ?_
      intro a ha
      rcases List.mem_map.mp ha with ⟨p, _, rfl⟩
      simp [isChartRef_tableLine]
    have hB : List.filter isChartRef
        ["", "### Histogram of word counts", "", histRef, "", "## Top sources", "",
         "| source | articles |", "|---|---:|"] = [histRef] := by decide
    have hC : List.filter isChartRef ["", srcRef, "", "## Articles per day", "", dayRef, ""]
        = [srcRef, dayRef] := by decide
    rw [List.filter_append, List.filter_append, List.filter_append, List.filter_append,
      hA, h1, hB, h2, hC]
    rfl

/-- C8 witness: the amended claim applied to a concrete one-row table. -/
theorem C8_chart_refs_amended_witness :
    (([5] : List ℕ) ≠ []) ∧
    (∃ ls, reportLines [5] [Value.str "A"] "out.csv" = Except.ok ls ∧
      ls.filter isChartRef = [histRef, srcRef, dayRef]) :=
  ⟨by decide, C8_chart_refs_amended [5] [Value.str "A"] "out.csv" (by decide)⟩
